import Mathlib

/-!
# Verification of guacapy's core: HOTP/TOTP generation, dispatcher, tree search

Shallow embedding of `guacapy/utilities.py` (the final versions of the
duplicated historical modules, per the specification's own guidance) together
with the user-group manager's `create`/`delete` from
`guacapy/managers/user_groups.py`.

External libraries the source calls (`hashlib.sha1`, `hmac`, `base64.b32decode`,
`struct.pack`, `str.rjust`, `requests` response handling, `re.search`) are
modelled per their documented behaviour: SHA-1 per FIPS 180, HMAC per RFC 2104,
base32 decoding per CPython's `base64._b32decode`, and `re.search` for the
pattern subset actually exercised (literal characters, a leading `^` anchor,
and the quantifiers `*`/`+` on a single character).
-/

set_option maxHeartbeats 1000000
set_option maxRecDepth 10000

namespace Guacapy

/-! ## Bytes and 32-bit arithmetic -/

/-- Truncation to a 32-bit word. -/
def w32 (n : Nat) : Nat := n % 4294967296

/-- Left rotation of a 32-bit word by `b` bits. -/
def rotl (b n : Nat) : Nat := ((n <<< b) ||| (n >>> (32 - b))) &&& 0xFFFFFFFF

/-- Big-endian byte serialization of `n` into exactly `k` bytes
(the value is taken modulo `2^(8*k)`, as the callers guarantee the bound). -/
def beBytes : Nat → Nat → List Nat
  | 0, _ => []
  | k + 1, n => ((n >>> (8 * k)) &&& 255) :: beBytes k n

/-- Big-endian interpretation of a byte list as an unsigned integer;
this is `struct.unpack(">I", _)` when the list has four bytes. -/
def beNat (l : List Nat) : Nat := l.foldl (fun acc b => acc * 256 + b) 0

theorem beBytes_length (k n : Nat) : (beBytes k n).length = k := by
  induction k generalizing n with
  | zero => rfl
  | succ k ih => simp [beBytes, ih]

/-! ## SHA-1 (FIPS 180), the digest `hashlib.sha1` computes -/

/-- SHA-1 working state: five 32-bit words. -/
structure Sha1St where
  a : Nat
  b : Nat
  c : Nat
  d : Nat
  e : Nat

/-- SHA-1 initial state. -/
def sha1Init : Sha1St := ⟨0x67452301, 0xEFCDAB89, 0x98BADCFE, 0x10325476, 0xC3D2E1F0⟩

/-- The SHA-1 round function `f_t`. -/
def sha1F (t b c d : Nat) : Nat :=
  if t < 20 then (b &&& c) ||| ((b ^^^ 0xFFFFFFFF) &&& d)
  else if t < 40 then b ^^^ c ^^^ d
  else if t < 60 then (b &&& c) ||| (b &&& d) ||| (c &&& d)
  else b ^^^ c ^^^ d

/-- The SHA-1 round constant `K_t`. -/
def sha1K (t : Nat) : Nat :=
  if t < 20 then 0x5A827999
  else if t < 40 then 0x6ED9EBA1
  else if t < 60 then 0x8F1BBCDC
  else 0xCA62C1D6

/-- One compression round. -/
def sha1Round (t : Nat) (st : Sha1St) (w : Nat) : Sha1St :=
  ⟨w32 (rotl 5 st.a + sha1F t st.b st.c st.d + st.e + sha1K t + w),
   st.a, rotl 30 st.b, st.c, st.d⟩

/-- Fold the 80 scheduled words through the round function. -/
def sha1Rounds : Nat → List Nat → Sha1St → Sha1St
  | _, [], st => st
  | t, w :: ws, st => sha1Rounds (t + 1) ws (sha1Round t st w)

/-- Message-schedule extension, kept in reverse order (head is the newest
word), so `W[t-3]`, `W[t-8]`, `W[t-14]`, `W[t-16]` sit at positions
2, 7, 13, 15. -/
def sha1ExtendRev : Nat → List Nat → List Nat
  | 0, ws => ws
  | k + 1, ws =>
      let w := rotl 1 ((ws.getD 2 0) ^^^ (ws.getD 7 0) ^^^ (ws.getD 13 0) ^^^ (ws.getD 15 0))
      sha1ExtendRev k (w :: ws)

/-- Group a byte list into big-endian 32-bit words. -/
def toWords : List Nat → List Nat
  | a :: b :: c :: d :: rest =>
      ((((a <<< 8) ||| b) <<< 8 ||| c) <<< 8 ||| d) :: toWords rest
  | _ => []

/-- Compress one 64-byte chunk into the state. -/
def sha1Compress (st : Sha1St) (chunk : List Nat) : Sha1St :=
  let ws := (sha1ExtendRev 64 (toWords chunk).reverse).reverse
  let r := sha1Rounds 0 ws st
  ⟨w32 (st.a + r.a), w32 (st.b + r.b), w32 (st.c + r.c), w32 (st.d + r.d), w32 (st.e + r.e)⟩

/-- Process the padded message 64 bytes at a time (fuel-driven so that the
definition is structural and reduces in the kernel). -/
def sha1Blocks : Nat → Sha1St → List Nat → Sha1St
  | 0, st, _ => st
  | _ + 1, st, [] => st
  | fuel + 1, st, bytes => sha1Blocks fuel (sha1Compress st (bytes.take 64)) (bytes.drop 64)

/-- FIPS 180 padding: `0x80`, zeros to 56 mod 64, then the 64-bit bit length. -/
def sha1Pad (msg : List Nat) : List Nat :=
  msg ++ 0x80 :: (List.replicate ((119 - msg.length % 64) % 64) 0 ++ beBytes 8 (8 * msg.length))

/-- SHA-1 of a byte list: a 20-byte digest. -/
def sha1 (msg : List Nat) : List Nat :=
  let padded := sha1Pad msg
  let st := sha1Blocks padded.length sha1Init padded
  beBytes 4 st.a ++ beBytes 4 st.b ++ beBytes 4 st.c ++ beBytes 4 st.d ++ beBytes 4 st.e

theorem sha1_length (msg : List Nat) : (sha1 msg).length = 20 := by
  simp [sha1, beBytes_length]

/-- FIPS 180 / RFC 3174 test vector: SHA-1 of `"abc"`. -/
example : sha1 [97, 98, 99] =
    [0xa9, 0x99, 0x3e, 0x36, 0x47, 0x06, 0x81, 0x6a, 0xba, 0x3e,
     0x25, 0x71, 0x78, 0x50, 0xc2, 0x6c, 0x9c, 0xd0, 0xd8, 0x9d] := by decide

/-! ## HMAC-SHA1 (RFC 2104), the digest `hmac.new(key, msg, hashlib.sha1)` computes -/

/-- HMAC-SHA1 with block size 64. -/
def hmacSha1 (key msg : List Nat) : List Nat :=
  let k0 := if 64 < key.length then sha1 key else key
  let k1 := k0 ++ List.replicate (64 - k0.length) 0
  sha1 ((k1.map (fun b => b ^^^ 0x5C)) ++ sha1 ((k1.map (fun b => b ^^^ 0x36)) ++ msg))

theorem hmacSha1_length (key msg : List Nat) : (hmacSha1 key msg).length = 20 := by
  simp [hmacSha1, sha1_length]

/-- ASCII bytes of a string (how the tests below spell byte-string literals). -/
def asciiBytes (s : String) : List Nat := s.data.map Char.toNat

/-- RFC 2202 test case 2: HMAC-SHA1 of `"what do ya want for nothing?"`
under key `"Jefe"`. -/
example : hmacSha1 (asciiBytes "Jefe") (asciiBytes "what do ya want for nothing?") =
    [0xef, 0xfc, 0xdf, 0x6a, 0xe5, 0xeb, 0x2f, 0xa2, 0xd2, 0x74,
     0x16, 0xd5, 0xf1, 0x84, 0xdf, 0x9c, 0x25, 0x9a, 0x7c, 0x79] := by decide

/-! ## Base32 decoding, `base64.b32decode(secret, True)` per CPython -/

/-- ASCII upper-casing of one byte, the `bytes.upper` step done by
`casefold=True`. -/
def upperByte (n : Nat) : Nat := if 97 ≤ n ∧ n ≤ 122 then n - 32 else n

/-- The reverse base32 alphabet: `A`–`Z` map to 0–25, `2`–`7` to 26–31,
anything else is a decode failure (`binascii.Error`). -/
def b32rev (n : Nat) : Option Nat :=
  if 65 ≤ n ∧ n ≤ 90 then some (n - 65)
  else if 50 ≤ n ∧ n ≤ 55 then some (n - 50 + 26)
  else none

/-- Decode 8-character quanta: each quantum is folded into a 40-bit
accumulator and emitted as five big-endian bytes; the last accumulator is
returned alongside for the padding adjustment. Fuel-driven (fuel is the
length of the value list) so the definition is structural. -/
def b32Quanta : Nat → List Nat → List Nat → Nat → (List Nat × Nat)
  | 0, _, dec, acc => (dec, acc)
  | _ + 1, [], dec, acc => (dec, acc)
  | fuel + 1, vs, dec, _ =>
      let acc := (vs.take 8).foldl (fun a v => a * 32 + v) 0
      b32Quanta fuel (vs.drop 8) (dec ++ beBytes 5 acc) acc

/-- CPython's `base64._b32decode` with `casefold=True`: reject non-ASCII
input and lengths not a multiple of 8, upper-case, strip trailing `=`,
decode quanta, validate the pad-character count, and rewrite the final
five bytes from the re-shifted last accumulator. -/
def b32decode (s : String) : Option (List Nat) :=
  let cs := s.data.map Char.toNat
  if cs.any (fun n => 127 < n) then none
  else if cs.length % 8 ≠ 0 then none
  else
    let up := cs.map upperByte
    let stripped := (up.reverse.dropWhile (fun n => n == 61)).reverse
    let padchars := up.length - stripped.length
    match stripped.mapM b32rev with
    | none => none
    | some vs =>
      let (decoded, acc) := b32Quanta vs.length vs [] 0
      if padchars = 0 ∨ padchars = 1 ∨ padchars = 3 ∨ padchars = 4 ∨ padchars = 6 then
        if padchars ≠ 0 ∧ decoded ≠ [] then
          let last := beBytes 5 (acc <<< (5 * padchars))
          some (decoded.take (decoded.length - 5) ++ last.take ((43 - 5 * padchars) / 8))
        else some decoded
      else none

example : b32decode "JBSWY3DPEHPK3PXP" =
    some [72, 101, 108, 108, 111, 33, 222, 173, 190, 239] := by decide

example : b32decode "MZXW6YQ=" = some (asciiBytes "foob") := by decide

example : b32decode "mzxw6ytboi======" = some (asciiBytes "foobar") := by decide

example : b32decode "MZXW6YQ" = none := by decide

example : b32decode "MZXW0YQ=" = none := by decide

/-! ## HOTP and TOTP, from `guacapy/utilities.py` -/

/-- Source `get_hotp_token` (utilities.py:205-228): decode the base32 secret, HMAC
the 8-byte big-endian counter, and dynamically truncate. `none` models the
exceptions Python raises (`binascii.Error` for a bad secret, `struct.error`
for a counter outside `[0, 2^64)`); the `getD` defaults never fire because
the digest has 20 bytes (`hmacSha1_length`). -/
def get_hotp_token (secret : String) (intervals_no : Nat) : Option Nat :=
  match b32decode secret with
  | none => none
  | some key =>
    if intervals_no < 2 ^ 64 then
      let msg := beBytes 8 intervals_no
      let h := hmacSha1 key msg
      let o := h.getD 19 0 &&& 15
      some ((beNat ((h.drop o).take 4) &&& 0x7FFFFFFF) % 1000000)
    else none

/-- Python's `str` of a non-negative integer: decimal digits, fuel-driven. -/
def decDigits : Nat → Nat → List Char → List Char
  | 0, _, acc => acc
  | fuel + 1, n, acc =>
      let d := Char.ofNat (48 + n % 10)
      if n < 10 then d :: acc else decDigits fuel (n / 10) (d :: acc)

/-- Python's `str(n)` for a natural number. -/
def pyStr (n : Nat) : String := ⟨decDigits (n + 1) n []⟩

/-- Python's `str.rjust`: left-pad with `fill` to `width` (no truncation). -/
def rjust (s : String) (width : Nat) (fill : Char) : String :=
  ⟨List.replicate (width - s.length) fill ++ s.data⟩

/-- Source `get_totp_token` (utilities.py:230-250), with the wall-clock second count
`t` (the value of `int(time.time())`) made an explicit argument: the counter
is `t // 30` and the result is `str(value).rjust(6, "0")`. -/
def get_totp_token (secret : String) (t : Nat) : Option String :=
  (get_hotp_token secret (t / 30)).map (fun value => rjust (pyStr value) 6 '0')

/-- RFC 4226 appendix D vectors, through the base32 encoding of the RFC's
20-byte key `"12345678901234567890"`. -/
example : get_hotp_token "GEZDGNBVGY3TQOJQGEZDGNBVGY3TQOJQ" 0 = some 755224 := by decide

example : get_hotp_token "GEZDGNBVGY3TQOJQGEZDGNBVGY3TQOJQ" 1 = some 287082 := by decide

/-- A value below 100000 is presented with a leading zero. -/
example : get_totp_token "JBSWY3DPEHPK3PXP" 870 = some "067820" := by decide

/-! ## The specification's reference HOTP definition (spec.md §4.1) -/

/-- Modelled from the spec: "compute HMAC-SHA1 over the big-endian 8-byte
encoding of `counter` using the decoded secret as key, producing a 20-byte
digest. Take the low 4 bits of the last byte as a dynamic offset `o` into the
digest; extract 4 bytes at `[o, o+4)`, interpret big-endian as unsigned
32-bit, mask off the top bit (AND with 0x7FFFFFFF), then reduce modulo
1,000,000." -/
def hotp_reference (key : List Nat) (counter : Nat) : Nat :=
  let digest := hmacSha1 key (beBytes 8 counter)
  let o := (digest.getLast?).getD 0 &&& 15
  (beNat ((digest.drop o).take 4) &&& 0x7FFFFFFF) % 1000000

/-- Modelled from the spec: the one-time code "as a string left-padded with
zeros to exactly 6 characters". -/
def hotp_reference_code (key : List Nat) (counter : Nat) : String :=
  let s := pyStr (hotp_reference key counter)
  ⟨List.replicate (6 - s.length) '0' ++ s.data⟩

theorem decDigits_length_le (fuel : Nat) : ∀ (n : Nat) (acc : List Char) (k : Nat),
    1 ≤ k → n < 10 ^ k → (decDigits fuel n acc).length ≤ k + acc.length := by
  induction fuel with
  | zero => intro n acc k hk _; simp only [decDigits]; omega
  | succ fuel ih =>
    intro n acc k hk hn
    by_cases h : n < 10
    · simp only [decDigits, if_pos h, List.length_cons]; omega
    · have hk2 : 2 ≤ k := by
        rcases k with _ | _ | k
        · omega
        · exfalso; rw [pow_one] at hn; omega
        · omega
      have hdiv : n / 10 < 10 ^ (k - 1) := by
        have hpow : 10 ^ k = 10 ^ (k - 1) * 10 := by
          rw [← pow_succ]; congr 1; omega
        exact Nat.div_lt_of_lt_mul (by omega)
      have := ih (n / 10) (Char.ofNat (48 + n % 10) :: acc) (k - 1) (by omega) hdiv
      simp only [decDigits, if_neg h, List.length_cons] at this ⊢
      omega

theorem pyStr_length_le (n k : Nat) (hk : 1 ≤ k) (hn : n < 10 ^ k) :
    (pyStr n).length ≤ k := by
  have := decDigits_length_le (n + 1) n [] k hk hn
  simpa [pyStr, String.length] using this

/-- C1: for every secret that decodes as valid base32 and every counter in
`[0, 2^64)`, `get_hotp_token` equals the spec's reference HOTP definition,
and the code `get_totp_token` presents to the caller is that value as a
string left-padded with zeros to exactly 6 characters. -/
theorem hotp_refines_spec (secret : String) (key : List Nat) (n : Nat)
    (hdec : b32decode secret = some key) (hn : n < 2 ^ 64) :
    get_hotp_token secret n = some (hotp_reference key n) ∧
    (∀ t : Nat, t / 30 = n → get_totp_token secret t = some (hotp_reference_code key n)) ∧
    (hotp_reference_code key n).length = 6 := by
  have hlen := hmacSha1_length key (beBytes 8 n)
  have hlast : (hmacSha1 key (beBytes 8 n)).getD 19 0 =
      ((hmacSha1 key (beBytes 8 n)).getLast?).getD 0 := by
    rw [List.getLast?_eq_getElem?, hlen, List.getD_eq_getElem?_getD]
  have hhotp : get_hotp_token secret n = some (hotp_reference key n) := by
    simp only [get_hotp_token, hdec, if_pos hn, hotp_reference, hlast]
  refine ⟨hhotp, ?_, ?_⟩
  · intro t ht
    simp only [get_totp_token, ht, hhotp, Option.map_some]
    rfl
  · have hv : hotp_reference key n < 1000000 :=
      Nat.mod_lt _ (by norm_num)
    have hle : (pyStr (hotp_reference key n)).length ≤ 6 :=
      pyStr_length_le _ 6 (by norm_num) (by norm_num at hv ⊢; omega)
    simp only [hotp_reference_code, String.length, List.length_append,
      List.length_replicate]
    simp only [String.length] at hle
    omega

/-- C1 witness: the hypotheses hold at the RFC 4226 secret and counter 1. -/
theorem hotp_refines_spec_witness :
    b32decode "GEZDGNBVGY3TQOJQGEZDGNBVGY3TQOJQ" = some (asciiBytes "12345678901234567890") ∧
    (1 : Nat) < 2 ^ 64 ∧
    get_hotp_token "GEZDGNBVGY3TQOJQGEZDGNBVGY3TQOJQ" 1 =
      some (hotp_reference (asciiBytes "12345678901234567890") 1) ∧
    get_totp_token "GEZDGNBVGY3TQOJQGEZDGNBVGY3TQOJQ" 30 =
      some (hotp_reference_code (asciiBytes "12345678901234567890") 1) :=
  ⟨by decide, by decide,
   (hotp_refines_spec "GEZDGNBVGY3TQOJQGEZDGNBVGY3TQOJQ"
     (asciiBytes "12345678901234567890") 1 (by decide) (by decide)).1,
   ((hotp_refines_spec "GEZDGNBVGY3TQOJQGEZDGNBVGY3TQOJQ"
     (asciiBytes "12345678901234567890") 1 (by decide) (by decide)).2.1 30 (by decide))⟩

/-- C9: for a fixed valid base32 secret the TOTP code is a function of
`floor(t / 30)` only: equal windows give equal codes, and a change of code
forces a change of window. -/
theorem totp_window (secret : String) (_hsec : (b32decode secret).isSome)
    (t1 t2 : Nat) (hw : t1 / 30 = t2 / 30) :
    get_totp_token secret t1 = get_totp_token secret t2 ∧
    (get_totp_token secret t1 ≠ get_totp_token secret t2 → t1 / 30 ≠ t2 / 30) := by
  have heq : get_totp_token secret t1 = get_totp_token secret t2 := by
    simp only [get_totp_token, hw]
  exact ⟨heq, fun hne _ => hne heq⟩

/-- C9 witness: seconds 870 and 899 share window 29. -/
theorem totp_window_witness :
    (b32decode "JBSWY3DPEHPK3PXP").isSome = true ∧ (870 : Nat) / 30 = 899 / 30 ∧
    get_totp_token "JBSWY3DPEHPK3PXP" 870 = get_totp_token "JBSWY3DPEHPK3PXP" 899 :=
  ⟨by decide, by decide,
   (totp_window "JBSWY3DPEHPK3PXP" (by decide) 870 899 (by decide)).1⟩

/-- C10: the HOTP computation is total for every decodable secret and 64-bit
counter: the digest has 20 bytes, the dynamic offset is at most 15, the
4-byte slice lies fully inside the digest, and the token is below 1,000,000. -/
theorem hotp_truncation_safe (secret : String) (key : List Nat) (n : Nat)
    (hdec : b32decode secret = some key) (hn : n < 2 ^ 64) :
    (hmacSha1 key (beBytes 8 n)).length = 20 ∧
    (hmacSha1 key (beBytes 8 n)).getD 19 0 &&& 15 ≤ 15 ∧
    ((hmacSha1 key (beBytes 8 n)).getD 19 0 &&& 15) + 4 ≤ 20 ∧
    (((hmacSha1 key (beBytes 8 n)).drop ((hmacSha1 key (beBytes 8 n)).getD 19 0 &&& 15)).take 4).length = 4 ∧
    (∀ v, get_hotp_token secret n = some v → v < 1000000) := by
  have hlen := hmacSha1_length key (beBytes 8 n)
  have ho : (hmacSha1 key (beBytes 8 n)).getD 19 0 &&& 15 ≤ 15 := Nat.and_le_right
  refine ⟨hlen, ho, by omega, ?_, ?_⟩
  · simp only [List.length_take, List.length_drop, hlen]
    omega
  · intro v hv
    simp only [get_hotp_token, hdec, if_pos hn, Option.some.injEq] at hv
    subst hv
    exact Nat.mod_lt _ (by norm_num)

/-- C10 witness: the safety bounds at the RFC 4226 secret and counter 0. -/
theorem hotp_truncation_safe_witness :
    b32decode "GEZDGNBVGY3TQOJQGEZDGNBVGY3TQOJQ" = some (asciiBytes "12345678901234567890") ∧
    (0 : Nat) < 2 ^ 64 ∧
    (hmacSha1 (asciiBytes "12345678901234567890") (beBytes 8 0)).length = 20 :=
  ⟨by decide, by decide,
   (hotp_truncation_safe "GEZDGNBVGY3TQOJQGEZDGNBVGY3TQOJQ"
     (asciiBytes "12345678901234567890") 0 (by decide) (by decide)).1⟩

/-! ## `re.search`, for the pattern subset the searches use -/

/-- A compiled pattern element: a literal character, or zero-or-more of a
character. `c+` is compiled as `c` followed by `c*`. -/
inductive RTok where
  | lit (c : Char)
  | star (c : Char)

/-- Compile the pattern characters (after a leading `^` has been split off):
literals, with `*` and `+` as postfix quantifiers on a single character. -/
def rtokens : List Char → List RTok
  | [] => []
  | c :: '*' :: rest => .star c :: rtokens rest
  | c :: '+' :: rest => .lit c :: .star c :: rtokens rest
  | c :: rest => .lit c :: rtokens rest

/-- Match the token list against a prefix of the character list (fuel-driven;
the fuel below always suffices because every step shortens tokens+input). -/
def rmatchF : Nat → List RTok → List Char → Bool
  | 0, _, _ => false
  | _ + 1, [], _ => true
  | _ + 1, .lit _ :: _, [] => false
  | fuel + 1, .lit c :: ts, x :: xs => c == x && rmatchF fuel ts xs
  | fuel + 1, .star c :: ts, xs =>
      rmatchF fuel ts xs ||
        (match xs with
         | [] => false
         | x :: xs' => c == x && rmatchF fuel (.star c :: ts) xs')

/-- Match the token list at the start of the input. -/
def rmatch (ts : List RTok) (xs : List Char) : Bool :=
  rmatchF (ts.length + xs.length + 1) ts xs

/-- Try a match at every start position. -/
def searchFrom (ts : List RTok) : List Char → Bool
  | [] => rmatch ts []
  | xs@(_ :: rest) => rmatch ts xs || searchFrom ts rest

/-- Truthiness of Python's `re.search(pattern, s)`, for patterns built from
literal characters, an optional leading `^` anchor, and the quantifiers `*`
and `+` on a single character — the subset this development exercises. -/
def re_search (pattern s : String) : Bool :=
  match pattern.data with
  | '^' :: rest => rmatch (rtokens rest) s.data
  | cs => searchFrom (rtokens cs) s.data

example : re_search "^al" "alpha" = true := by decide

example : re_search "^al" "ROOT" = false := by decide

example : re_search "al" "realpath" = true := by decide

example : re_search "a+b" "a+b" = false := by decide

example : re_search "a+b" "caaab" = true := by decide

/-! ## The resource tree and `_find_by_name` (utilities.py:252-310) -/

/-- A resource tree node as the search sees it: a `name` plus the two child
keys, each either absent (`none`, the key missing from the dict) or a list
of child nodes. -/
inductive TNode where
  | mk (name : String) (conns : Option (List TNode)) (groups : Option (List TNode))

/-- The `name` entry of a node. -/
def TNode.name : TNode → String
  | mk n _ _ => n

/-- The two dictionary keys the search indexes with. -/
inductive ResKey where
  | childConnections
  | childConnectionGroups

/-- Key access `data[key]`, `none` when the key is absent. -/
def TNode.getKey : TNode → ResKey → Option (List TNode)
  | .mk _ conns _, .childConnections => conns
  | .mk _ _ groups, .childConnectionGroups => groups

/-- One name comparison: `re.search(name, s)` under regex matching,
`s == name` under exact matching. -/
def nameMatch (regex : Bool) (name s : String) : Bool :=
  if regex then re_search name s else s == name

mutual
/-- Source `_find_by_name` (utilities.py:252-310): if `key` is present, return the
first direct child under `key` whose name matches; otherwise recurse into
the children under `child_key` in order, returning the first hit; finally
test the node's own name. -/
def _find_by_name : TNode → String → ResKey → ResKey → Bool → Option TNode
  | data@(.mk nm conns groups), name, key, child_key, regex =>
    let recurseChildren : Option TNode :=
      match child_key with
      | .childConnections => findLoopO conns name key child_key regex
      | .childConnectionGroups => findLoopO groups name key child_key regex
    let fromChildren : Option TNode :=
      match data.getKey key with
      | none => recurseChildren
      | some children =>
        match children.filter (fun x => nameMatch regex name x.name) with
        | r :: _ => some r
        | [] => recurseChildren
    match fromChildren with
    | some r => some r
    | none => if nameMatch regex name nm then some data else none

/-- The `if child_key in data` guard: an absent key contributes nothing. -/
def findLoopO : Option (List TNode) → String → ResKey → ResKey → Bool → Option TNode
  | none, _, _, _, _ => none
  | some l, name, key, child_key, regex => findLoop l name key child_key regex

/-- The `for child in data[child_key]` loop: first non-`None` recursive
result wins. -/
def findLoop : List TNode → String → ResKey → ResKey → Bool → Option TNode
  | [], _, _, _, _ => none
  | c :: cs, name, key, child_key, regex =>
    match _find_by_name c name key child_key regex with
    | some r => some r
    | none => findLoop cs name key child_key regex
end

/-- Source `_find_connection_by_name` (utilities.py:312-344). -/
def _find_connection_by_name (connection_data : TNode) (name : String) (regex : Bool) :
    Option TNode :=
  _find_by_name connection_data name .childConnections .childConnectionGroups regex

/-- Source `_find_connection_group_by_name` (utilities.py:346-378). -/
def _find_connection_group_by_name (group_data : TNode) (name : String) (regex : Bool) :
    Option TNode :=
  _find_by_name group_data name .childConnectionGroups .childConnectionGroups regex

mutual
/-- The candidate list underlying `_find_by_name`'s traversal: the direct
children under `key` (when present), then, recursively, the candidates of
each child under `child_key` (when present), then the node itself. -/
def searchCands (key child_key : ResKey) : TNode → List TNode
  | data@(.mk _ conns groups) =>
    (data.getKey key).getD [] ++
    ((match child_key with
      | .childConnections => searchCandsO key child_key conns
      | .childConnectionGroups => searchCandsO key child_key groups) ++ [data])

/-- Candidates below an optional child list. -/
def searchCandsO (key child_key : ResKey) : Option (List TNode) → List TNode
  | none => []
  | some l => searchCandsL key child_key l

/-- Candidates of a child list, in order. -/
def searchCandsL (key child_key : ResKey) : List TNode → List TNode
  | [] => []
  | c :: cs => searchCands key child_key c ++ searchCandsL key child_key cs
end

/-- Simultaneous induction for the nested tree type: a property of nodes
and a property of node lists, each closed under the other. -/
theorem tnode_induction (P : TNode → Prop) (Q : List TNode → Prop)
    (hmk : ∀ nm conns groups,
      (∀ l, conns = some l → Q l) → (∀ l, groups = some l → Q l) →
      P (TNode.mk nm conns groups))
    (hnil : Q [])
    (hcons : ∀ c cs, P c → Q cs → Q (c :: cs)) :
    (∀ d, P d) ∧ (∀ l, Q l) := by
  have hP : ∀ d, P d :=
    @TNode.rec P (fun o => ∀ l, o = some l → Q l) Q
      (fun nm conns groups ihc ihg => hmk nm conns groups ihc ihg)
      (fun _ h => nomatch h)
      (fun _ hval l h => Option.some.inj h ▸ hval)
      hnil
      (fun head tail ph qt => hcons head tail ph qt)
  refine ⟨hP, ?_⟩
  intro l
  induction l with
  | nil => exact hnil
  | cons c cs ih => exact hcons c cs (hP c) ih

theorem head?_filter_eq_find? {α : Type} (p : α → Bool) (l : List α) :
    (l.filter p).head? = l.find? p := by
  induction l with
  | nil => rfl
  | cons x xs ih =>
    by_cases h : p x <;>
      simp [List.filter_cons, List.find?_cons_of_pos, List.find?_cons_of_neg, h, ih]

/-- The search `_find_by_name` returns exactly the first match in its candidate list. -/
theorem find_eq_searchCands :
    ∀ (d : TNode) (name : String) (key child_key : ResKey) (regex : Bool),
      _find_by_name d name key child_key regex =
        (searchCands key child_key d).find? (fun x => nameMatch regex name x.name) := by
  have main := tnode_induction
    (fun d => ∀ (name : String) (key child_key : ResKey) (regex : Bool),
      _find_by_name d name key child_key regex =
        (searchCands key child_key d).find? (fun x => nameMatch regex name x.name))
    (fun l => ∀ (name : String) (key child_key : ResKey) (regex : Bool),
      findLoop l name key child_key regex =
        (searchCandsL key child_key l).find? (fun x => nameMatch regex name x.name))
    ?_ ?_ ?_
  · exact main.1
  · -- node case
    intro nm conns groups ihc ihg name key child_key regex
    have hself : [TNode.mk nm conns groups].find? (fun x => nameMatch regex name x.name) =
        if nameMatch regex name nm then some (TNode.mk nm conns groups) else none := by
      by_cases h : nameMatch regex name nm <;>
        simp [List.find?_cons_of_pos, List.find?_cons_of_neg, TNode.name, h]
    cases child_key with
    | childConnections =>
      have hL : findLoopO conns name key ResKey.childConnections regex =
          (searchCandsO key ResKey.childConnections conns).find?
            (fun x => nameMatch regex name x.name) := by
        cases conns with
        | none => rfl
        | some l => exact ihc l rfl name key ResKey.childConnections regex
      simp only [_find_by_name, searchCands]
      rw [List.find?_append, List.find?_append, hself, ← hL]
      cases hk : TNode.getKey (TNode.mk nm conns groups) key with
      | none =>
        simp only [Option.getD_none, List.find?_nil, Option.none_or]
        cases hx : findLoopO conns name key ResKey.childConnections regex <;>
          simp [Option.or_some, Option.none_or]
      | some children =>
        simp only [Option.getD_some]
        rw [← head?_filter_eq_find?]
        cases hf : children.filter (fun x => nameMatch regex name x.name) with
        | nil =>
          simp only [List.head?_nil, Option.none_or]
          cases hx : findLoopO conns name key ResKey.childConnections regex <;>
            simp [Option.or_some, Option.none_or]
        | cons r rest => simp [Option.or_some]
    | childConnectionGroups =>
      have hL : findLoopO groups name key ResKey.childConnectionGroups regex =
          (searchCandsO key ResKey.childConnectionGroups groups).find?
            (fun x => nameMatch regex name x.name) := by
        cases groups with
        | none => rfl
        | some l => exact ihg l rfl name key ResKey.childConnectionGroups regex
      simp only [_find_by_name, searchCands]
      rw [List.find?_append, List.find?_append, hself, ← hL]
      cases hk : TNode.getKey (TNode.mk nm conns groups) key with
      | none =>
        simp only [Option.getD_none, List.find?_nil, Option.none_or]
        cases hx : findLoopO groups name key ResKey.childConnectionGroups regex <;>
          simp [Option.or_some, Option.none_or]
      | some children =>
        simp only [Option.getD_some]
        rw [← head?_filter_eq_find?]
        cases hf : children.filter (fun x => nameMatch regex name x.name) with
        | nil =>
          simp only [List.head?_nil, Option.none_or]
          cases hx : findLoopO groups name key ResKey.childConnectionGroups regex <;>
            simp [Option.or_some, Option.none_or]
        | cons r rest => simp [Option.or_some]
  · intro _ _ _ _; rfl
  · -- list case
    intro c cs pc qcs name key child_key regex
    simp only [findLoop, searchCandsL, List.find?_append]
    rw [← pc name key child_key regex, ← qcs name key child_key regex]
    cases hx : _find_by_name c name key child_key regex <;>
      simp [Option.none_or, Option.or_some]

theorem dropLast_append_singleton {α : Type} (A B : List α) (d : α) :
    A ++ (B ++ [d]) = (A ++ (B ++ [d])).dropLast ++ [d] := by
  have h : A ++ (B ++ [d]) = (A ++ B) ++ [d] := by simp
  rw [h]
  simp

/-- Every candidate list ends with the node itself. -/
theorem searchCands_split (key child_key : ResKey) (t : TNode) :
    searchCands key child_key t = (searchCands key child_key t).dropLast ++ [t] := by
  cases t with
  | mk nm conns groups =>
    simp only [searchCands]
    exact dropLast_append_singleton _ _ _

/-- A node is always among its own candidates. -/
theorem searchCands_self_mem (key child_key : ResKey) (t : TNode) :
    t ∈ searchCands key child_key t := by
  cases t with
  | mk nm conns groups => simp [searchCands]

/-- The three-level test tree: a connection `alpha` sits in the
`childConnections` of `group3`, three connection-group levels below the root. -/
def alphaTree : TNode :=
  .mk "ROOT" (some [])
    (some [.mk "group1" (some [])
      (some [.mk "group2" (some [])
        (some [.mk "group3" (some [.mk "alpha" none none]) none])])])

/-- C2: in a tree with a connection `"alpha"` nested three levels deep under
connection-groups, exact search for `"alpha"` and regex search for `"^al"`
both return that connection, and search for `"missing"` returns `none`. -/
theorem tree_search_alpha_scenario :
    _find_connection_by_name alphaTree "alpha" false = some (TNode.mk "alpha" none none) ∧
    _find_connection_by_name alphaTree "^al" true = some (TNode.mk "alpha" none none) ∧
    _find_connection_by_name alphaTree "missing" false = none :=
  ⟨rfl, rfl, rfl⟩

/-- C3 counterexample: in a tree whose only name-`"alpha"` node is a
connection-*group* (every `childConnections` list is empty, as the last two
conjuncts record), the connection search returns that group node instead of
the absent result the claim requires. -/
theorem connection_search_group_hit_counterexample :
    _find_connection_by_name
      (TNode.mk "ROOT" (some []) (some [TNode.mk "alpha" (some []) none]))
      "alpha" false = some (TNode.mk "alpha" (some []) none) ∧
    (TNode.mk "ROOT" (some []) (some [TNode.mk "alpha" (some []) none])).getKey
      ResKey.childConnections = some [] ∧
    (TNode.mk "alpha" (some []) none).getKey ResKey.childConnections = some [] :=
  ⟨rfl, rfl, rfl⟩

/-- C3 (amended): the connection search returns the first name-matching node
of its candidate list — at each node the `childConnections` entries, then
recursively the candidates of each child connection-group, then the node
itself — and is absent exactly when no candidate (connection or group)
matches. -/
theorem connection_search_first_candidate (d : TNode) (name : String) (regex : Bool) :
    _find_connection_by_name d name regex =
      (searchCands ResKey.childConnections ResKey.childConnectionGroups d).find?
        (fun x => nameMatch regex name x.name) ∧
    (_find_connection_by_name d name regex = none ↔
      ∀ x ∈ searchCands ResKey.childConnections ResKey.childConnectionGroups d,
        ¬ nameMatch regex name x.name) := by
  have h := find_eq_searchCands d name ResKey.childConnections ResKey.childConnectionGroups regex
  refine ⟨h, ?_⟩
  simp only [_find_connection_by_name] at h ⊢
  rw [h]
  exact List.find?_eq_none

/-- C8 counterexample: a root group named `"g"` with a child group also named
`"g"`: the exact group search returns the child, not the root node itself. -/
theorem group_search_shadowed_root_counterexample :
    _find_connection_group_by_name
      (TNode.mk "g" none (some [TNode.mk "g" none none])) "g" false =
      some (TNode.mk "g" none none) ∧
    TNode.mk "g" none none ≠ TNode.mk "g" none (some [TNode.mk "g" none none]) := by
  refine ⟨rfl, ?_⟩
  simp

/-- C8 (amended): when the root's name matches the target (exactly, or — for
regex matching — when the pattern matches the root's own name), the group
search returns some matching group node, never an absent result; it is the
root itself whenever no other candidate in the tree matches (children are
searched before the node itself, so a matching descendant group found first
is returned instead). -/
theorem group_search_self_match (t : TNode) (name : String) :
    (t.name = name →
      ∃ x, _find_connection_group_by_name t name false = some x ∧ x.name = name) ∧
    (re_search name t.name = true →
      ∃ x, _find_connection_group_by_name t name true = some x ∧
        re_search name x.name = true) ∧
    (t.name = name →
      (∀ x ∈ (searchCands ResKey.childConnectionGroups ResKey.childConnectionGroups t).dropLast,
        x.name ≠ name) →
      _find_connection_group_by_name t name false = some t) := by
  refine ⟨?_, ?_, ?_⟩
  · intro hname
    have hchar := find_eq_searchCands t name ResKey.childConnectionGroups
      ResKey.childConnectionGroups false
    have hmem := searchCands_self_mem ResKey.childConnectionGroups
      ResKey.childConnectionGroups t
    have hp : nameMatch false name t.name = true := by simp [nameMatch, hname]
    have hsome : ((searchCands ResKey.childConnectionGroups ResKey.childConnectionGroups
        t).find? (fun x => nameMatch false name x.name)).isSome :=
      List.find?_isSome.mpr ⟨t, hmem, hp⟩
    obtain ⟨x, hx⟩ := Option.isSome_iff_exists.mp hsome
    refine ⟨x, ?_, ?_⟩
    · simp only [_find_connection_group_by_name]
      rw [hchar]
      exact hx
    · have := List.find?_some hx
      simpa [nameMatch] using this
  · intro hname
    have hchar := find_eq_searchCands t name ResKey.childConnectionGroups
      ResKey.childConnectionGroups true
    have hmem := searchCands_self_mem ResKey.childConnectionGroups
      ResKey.childConnectionGroups t
    have hp : nameMatch true name t.name = true := by simp [nameMatch, hname]
    have hsome : ((searchCands ResKey.childConnectionGroups ResKey.childConnectionGroups
        t).find? (fun x => nameMatch true name x.name)).isSome :=
      List.find?_isSome.mpr ⟨t, hmem, hp⟩
    obtain ⟨x, hx⟩ := Option.isSome_iff_exists.mp hsome
    refine ⟨x, ?_, ?_⟩
    · simp only [_find_connection_group_by_name]
      rw [hchar]
      exact hx
    · have := List.find?_some hx
      simpa [nameMatch] using this
  · intro hname hpre
    have hchar := find_eq_searchCands t name ResKey.childConnectionGroups
      ResKey.childConnectionGroups false
    simp only [_find_connection_group_by_name]
    rw [hchar]
    conv_lhs => rw [searchCands_split]
    rw [List.find?_append]
    have h1 : ((searchCands ResKey.childConnectionGroups ResKey.childConnectionGroups
        t).dropLast).find? (fun x => nameMatch false name x.name) = none :=
      List.find?_eq_none.mpr (fun x hx => by simpa [nameMatch] using hpre x hx)
    rw [h1, Option.none_or]
    have hp : nameMatch false name t.name = true := by simp [nameMatch, hname]
    simp [List.find?_cons_of_pos, hp]

/-- C8 witness: the amended theorem applied to a one-node tree named
`"alpha"`, discharging all three hypotheses concretely. -/
theorem group_search_self_match_witness :
    (∃ x, _find_connection_group_by_name (TNode.mk "alpha" none none) "alpha" false =
        some x ∧ x.name = "alpha") ∧
    (∃ x, _find_connection_group_by_name (TNode.mk "alpha" none none) "alpha" true =
        some x ∧ re_search "alpha" x.name = true) ∧
    _find_connection_group_by_name (TNode.mk "alpha" none none) "alpha" false =
      some (TNode.mk "alpha" none none) :=
  ⟨(group_search_self_match (TNode.mk "alpha" none none) "alpha").1 rfl,
   (group_search_self_match (TNode.mk "alpha" none none) "alpha").2.1 (by decide),
   (group_search_self_match (TNode.mk "alpha" none none) "alpha").2.2 rfl
     (by simp [searchCands, TNode.getKey, searchCandsO])⟩

/-! ## The dispatcher `requester` (utilities.py:93-174) and payload
validation (utilities.py:176-203), with the user-group manager's
`create`/`delete` (managers/user_groups.py) -/

/-- A Python value as the managers see it: `None`, scalars, lists, and
dictionaries (modelled as association lists in insertion order). -/
inductive PyVal where
  | none_
  | bool (b : Bool)
  | num (n : Int)
  | str (s : String)
  | dict (fields : List (String × PyVal))
  | list (elems : List PyVal)

/-- Python `value is None`. -/
def PyVal.isNone : PyVal → Bool
  | none_ => true
  | _ => false

/-- Dictionary lookup, `d[k]` / `k in d`. -/
def lookup : List (String × PyVal) → String → Option PyVal
  | [], _ => none
  | (k, v) :: rest, key => if k == key then some v else lookup rest key

/-- An HTTP response as the dispatcher's post-network processing sees it:
the status code, and what `.json()` would yield (`none` models a body that
is not valid JSON, where `.json()` raises `JSONDecodeError`). -/
structure HttpResponse where
  status_code : Nat
  jsonBody : Option PyVal

/-- requests' `Response.ok`: true below 400. -/
def HttpResponse.ok (r : HttpResponse) : Bool := r.status_code < 400

/-- The exceptions the dispatcher lets escape: `requests.HTTPError` carrying
the status (from `raise_for_status`), or a `JSONDecodeError`. -/
inductive DispatchError where
  | httpError (status : Nat)
  | decodeError

/-- A successful dispatcher result: the decoded JSON value, or the raw
response object when `json_response=False`. -/
inductive DispatchOk where
  | json (v : PyVal)
  | raw (r : HttpResponse)

/-- Source `requester` (utilities.py:143-174), after the network call:
`raise_for_status` raises for statuses in `[400, 600)`; then the body is
JSON-decoded only when `json_response` is set, re-raising the decode
failure; otherwise the raw response is returned. -/
def requester (r : HttpResponse) (json_response : Bool) : Except DispatchError DispatchOk :=
  if 400 ≤ r.status_code ∧ r.status_code < 600 then .error (.httpError r.status_code)
  else if json_response then
    match r.jsonBody with
    | some v => .ok (.json v)
    | none => .error .decodeError
  else .ok (.raw r)

/-- Source `validate_payload` (utilities.py:176-203): every template key must be
present (unless partial), nested dictionaries recurse in partial mode, and
a non-`None` template value forbids a `None`/absent payload value (unless
partial). Errors carry Python's message; the first failing key wins. -/
def validate_payload : List (String × PyVal) → List (String × PyVal) → Bool → Except String Unit
  | _, [], _ => .ok ()
  | payload, (key, value) :: rest, allow_partial =>
    match lookup payload key with
    | none =>
      if ! allow_partial then .error ("Missing required field: " ++ key)
      else validate_payload payload rest allow_partial
    | some pv =>
      match value, pv with
      | .dict tfields, .dict pfields =>
        match validate_payload pfields tfields true with
        | .error e => .error e
        | .ok _ => validate_payload payload rest allow_partial
      | _, _ =>
        if ! value.isNone && pv.isNone && ! allow_partial then
          .error ("Field " ++ key ++ " cannot be None")
        else validate_payload payload rest allow_partial

namespace UserGroupManager

/-- Source `UserGroupManager.GROUP_TEMPLATE` (managers/user_groups.py). -/
def GROUP_TEMPLATE : List (String × PyVal) :=
  [("identifier", .str ""), ("attributes", .dict [("disabled", .str "")])]

/-- What `create` can raise: a `ValueError` from validation, or a dispatcher
failure. -/
inductive CreateError where
  | validation (msg : String)
  | dispatch (e : DispatchError)

/-- Source `UserGroupManager.create` (managers/user_groups.py:205-248): validate
against the template, POST, and convert an HTTP 400 (group already exists)
to `None`; every other failure is re-raised. The response the network would
return is the explicit `r` argument. -/
def create (payload : List (String × PyVal)) (r : HttpResponse) :
    Except CreateError (Option DispatchOk) :=
  match validate_payload payload GROUP_TEMPLATE false with
  | .error msg => .error (.validation msg)
  | .ok _ =>
    match requester r true with
    | .ok result => .ok (some result)
    | .error (.httpError s) =>
      if s = 400 then .ok none else .error (.dispatch (.httpError s))
    | .error .decodeError => .error (.dispatch .decodeError)

/-- Source `UserGroupManager.update` (managers/user_groups.py:250-290): validate
against the template, then PUT with `json_response=False`; nothing is
caught, so every dispatcher failure propagates unchanged. -/
def update (payload : List (String × PyVal)) (r : HttpResponse) :
    Except CreateError DispatchOk :=
  match validate_payload payload GROUP_TEMPLATE false with
  | .error msg => .error (.validation msg)
  | .ok _ =>
    match requester r false with
    | .ok result => .ok result
    | .error e => .error (.dispatch e)

/-- Source `UserGroupManager.delete` (managers/user_groups.py:292-342): DELETE with
`json_response=False`, converting an HTTP 500 (the documented server-side
bug) to `None`; every other failure is re-raised. -/
def delete (r : HttpResponse) : Except DispatchError (Option DispatchOk) :=
  match requester r false with
  | .ok result => .ok (some result)
  | .error (.httpError s) =>
    if s = 500 then .ok none else .error (.httpError s)
  | .error .decodeError => .error .decodeError

end UserGroupManager

/-- C4 counterexample: a 304 response is not 2xx, yet the dispatcher does
not raise: with `json_response=True` it decodes and returns the body,
because `raise_for_status` only raises for statuses in `[400, 600)`. -/
theorem requester_304_no_raise_counterexample :
    ¬ (200 ≤ 304 ∧ 304 < 300) ∧
    requester ⟨304, some (.str "x")⟩ true = .ok (.json (.str "x")) :=
  ⟨by decide, rfl⟩

/-- C4 (amended): the dispatcher raises a structured HTTP error carrying the
status for every status in `[400, 600)` — in particular a 401 response with
body `{"message": "Invalid password"}` raises an error carrying 401 — while
a response with status below 400 and `json_response=False` is returned raw,
with no JSON decoding attempted. -/
theorem requester_error_contract :
    (∀ (r : HttpResponse) (j : Bool), 400 ≤ r.status_code → r.status_code < 600 →
      requester r j = .error (.httpError r.status_code)) ∧
    (requester ⟨401, some (.dict [("message", .str "Invalid password")])⟩ true =
      .error (.httpError 401)) ∧
    (∀ r : HttpResponse, r.status_code < 400 → requester r false = .ok (.raw r)) := by
  refine ⟨?_, rfl, ?_⟩
  · intro r j h1 h2
    simp only [requester, if_pos (And.intro h1 h2)]
  · intro r h
    have hn : ¬ (400 ≤ r.status_code ∧ r.status_code < 600) := by omega
    simp [requester, if_neg hn]

/-- C4 witness: the amended contract at a 404 response and a 204 response. -/
theorem requester_error_contract_witness :
    requester ⟨404, none⟩ true = .error (.httpError 404) ∧
    requester ⟨204, none⟩ false = .ok (.raw ⟨204, none⟩) :=
  ⟨requester_error_contract.1 ⟨404, none⟩ true (by decide) (by decide),
   requester_error_contract.2.2 ⟨204, none⟩ (by decide)⟩

/-- C5: a successful (2xx) response requested with JSON parsing whose body
is not valid JSON makes the dispatcher fail with the decode error — never a
raw or partial result. -/
theorem requester_decode_failure (r : HttpResponse)
    (h2 : 200 ≤ r.status_code) (h2' : r.status_code < 300)
    (hbody : r.jsonBody = none) :
    requester r true = .error .decodeError := by
  have hn : ¬ (400 ≤ r.status_code ∧ r.status_code < 600) := by omega
  simp [requester, if_neg hn, hbody]

/-- C5 witness: a 200 response with an undecodable body. -/
theorem requester_decode_failure_witness :
    (200 : Nat) ≤ 200 ∧ (200 : Nat) < 300 ∧
    requester ⟨200, none⟩ true = .error .decodeError :=
  ⟨by decide, by decide,
   requester_decode_failure ⟨200, none⟩ (by decide) (by decide) rfl⟩

/-- C6: a create-group payload missing a required top-level key of the
template fails validation — so `create` raises the validation error no
matter what the network would have answered — while a payload whose nested
`attributes` map is empty passes validation, nested dictionaries being
validated in partial mode. -/
theorem create_validation_gate :
    (∀ (p : List (String × PyVal)) (r : HttpResponse),
      (lookup p "identifier").isNone = true ∨ (lookup p "attributes").isNone = true →
      ∃ msg, UserGroupManager.create p r = .error (.validation msg)) ∧
    (∀ s : String,
      validate_payload [("identifier", .str s), ("attributes", .dict [])]
        UserGroupManager.GROUP_TEMPLATE false = .ok ()) := by
  constructor
  · intro p r h
    have hval : ∃ msg,
        validate_payload p UserGroupManager.GROUP_TEMPLATE false = .error msg := by
      cases hl : lookup p "identifier" with
      | none =>
        exact ⟨"Missing required field: identifier",
          by simp [validate_payload, UserGroupManager.GROUP_TEMPLATE, hl]⟩
      | some v =>
        rcases h with h | h
        · rw [hl] at h
          simp [Option.isNone] at h
        · by_cases hv : v.isNone
          · refine ⟨"Field identifier cannot be None", ?_⟩
            cases v <;> simp_all [validate_payload, UserGroupManager.GROUP_TEMPLATE,
              hl, PyVal.isNone]
          · refine ⟨"Missing required field: attributes", ?_⟩
            cases v <;> simp_all [validate_payload, UserGroupManager.GROUP_TEMPLATE,
              hl, PyVal.isNone]
    obtain ⟨msg, hmsg⟩ := hval
    exact ⟨msg, by simp [UserGroupManager.create, hmsg]⟩
  · intro s
    simp [validate_payload, UserGroupManager.GROUP_TEMPLATE, lookup, PyVal.isNone]

/-- C6 witness: the empty payload fails, the minimal well-formed payload
with an empty `attributes` map passes. -/
theorem create_validation_gate_witness :
    (∃ msg, UserGroupManager.create [] ⟨204, none⟩ = .error (.validation msg)) ∧
    validate_payload [("identifier", .str "netadmins"), ("attributes", .dict [])]
      UserGroupManager.GROUP_TEMPLATE false = .ok () :=
  ⟨create_validation_gate.1 [] ⟨204, none⟩ (Or.inl rfl),
   create_validation_gate.2 "netadmins"⟩

/-- C7: dispatcher failures propagate unchanged through the user-group
manager except for the documented conversions: `delete` turns exactly the
500 failure into `None` and re-raises every other failure status, `create`
turns exactly the 400 create-conflict into `None` and re-raises every other
failure status, and a method without a documented conversion (`update`)
re-raises every failure status unchanged. -/
theorem manager_error_propagation :
    (∀ r : HttpResponse, 400 ≤ r.status_code → r.status_code < 600 →
      r.status_code ≠ 500 →
      UserGroupManager.delete r = .error (.httpError r.status_code)) ∧
    (∀ r : HttpResponse, r.status_code = 500 →
      UserGroupManager.delete r = .ok none) ∧
    (∀ (p : List (String × PyVal)) (r : HttpResponse),
      validate_payload p UserGroupManager.GROUP_TEMPLATE false = .ok () →
      400 ≤ r.status_code → r.status_code < 600 → r.status_code ≠ 400 →
      UserGroupManager.create p r = .error (.dispatch (.httpError r.status_code))) ∧
    (∀ (p : List (String × PyVal)) (r : HttpResponse),
      validate_payload p UserGroupManager.GROUP_TEMPLATE false = .ok () →
      r.status_code = 400 →
      UserGroupManager.create p r = .ok none) ∧
    (∀ (p : List (String × PyVal)) (r : HttpResponse),
      validate_payload p UserGroupManager.GROUP_TEMPLATE false = .ok () →
      400 ≤ r.status_code → r.status_code < 600 →
      UserGroupManager.update p r = .error (.dispatch (.httpError r.status_code))) := by
  refine ⟨?_, ?_, ?_, ?_, ?_⟩
  · intro r h1 h2 h3
    simp only [UserGroupManager.delete, requester, if_pos (And.intro h1 h2)]
    simp [h3]
  · intro r h
    simp [UserGroupManager.delete, requester, h]
  · intro p r hval h1 h2 h3
    simp only [UserGroupManager.create, hval, requester, if_pos (And.intro h1 h2)]
    simp [h3]
  · intro p r hval h
    simp [UserGroupManager.create, hval, requester, h]
  · intro p r hval h1 h2
    simp only [UserGroupManager.update, hval, requester, if_pos (And.intro h1 h2)]

/-- C7 witness: each branch at a concrete status (404, 500, 503, 400) with a
concrete valid payload. -/
theorem manager_error_propagation_witness :
    UserGroupManager.delete ⟨404, none⟩ = .error (.httpError 404) ∧
    UserGroupManager.delete ⟨500, none⟩ = .ok none ∧
    UserGroupManager.create [("identifier", PyVal.str "g"), ("attributes", PyVal.dict [])]
      ⟨503, none⟩ = .error (.dispatch (.httpError 503)) ∧
    UserGroupManager.create [("identifier", PyVal.str "g"), ("attributes", PyVal.dict [])]
      ⟨400, none⟩ = .ok none ∧
    UserGroupManager.update [("identifier", PyVal.str "g"), ("attributes", PyVal.dict [])]
      ⟨404, none⟩ = .error (.dispatch (.httpError 404)) :=
  ⟨manager_error_propagation.1 ⟨404, none⟩ (by decide) (by decide) (by decide),
   manager_error_propagation.2.1 ⟨500, none⟩ rfl,
   manager_error_propagation.2.2.1 _ ⟨503, none⟩
     (by simp [validate_payload, UserGroupManager.GROUP_TEMPLATE, lookup, PyVal.isNone])
     (by decide) (by decide) (by decide),
   manager_error_propagation.2.2.2.1 _ ⟨400, none⟩
     (by simp [validate_payload, UserGroupManager.GROUP_TEMPLATE, lookup, PyVal.isNone]) rfl,
   manager_error_propagation.2.2.2.2 _ ⟨404, none⟩
     (by simp [validate_payload, UserGroupManager.GROUP_TEMPLATE, lookup, PyVal.isNone])
     (by decide) (by decide)⟩

end Guacapy
